import Mathlib

/-
Verification of the compiler-flag resolution and invocation engine of
deoplete-clang2 (rplugin/python3/deoplete/sources/deoplete_clang2.py).

The Python source is shallowly embedded below.  External capabilities
(the spawned clang process, the filesystem, `os.path.expandvars`, the
SHA1 hex digest, the regex scan of a compiler command line) are passed
in as explicit function parameters; everything else (the retry loop,
the flag folds, the directory walk, the cache decisions) is translated
directly from the source.
-/

set_option autoImplicit false
set_option maxRecDepth 8000

namespace DeopleteClang2

/-- Single-quote character, kept out of string literals. -/
def quoteChar : Char := Char.ofNat 39

/-- Is the first list a prefix of the second?  (Helper for substring scans.) -/
def listStartsWith : List Char → List Char → Bool
  | [], _ => true
  | _ :: _, [] => false
  | a :: as, b :: bs => a == b && listStartsWith as bs

/-- Does `needle` occur as a contiguous sublist?  Models Python `in` on strings. -/
def containsSub (needle : List Char) : List Char → Bool
  | [] => listStartsWith needle []
  | c :: cs => listStartsWith needle (c :: cs) || containsSub needle cs

/-- Models `'unknown argument' in stderr` (deoplete_clang2.py line 276). -/
def hasUnknownArg (stderr : String) : Bool :=
  containsSub "unknown argument".data stderr.data

/-- The literal part of the diagnostic regex at line 277, up to the opening quote. -/
def unknownArgPat : List Char := "unknown argument: ".data ++ [quoteChar]

/-- Fueled scanner for `re.finditer(r"unknown argument: '([^']+)'", stderr)`
(line 277): finds every non-overlapping quoted argument, scanning left to
right and resuming after each match.  Fuel is the length of the text, which
suffices because every step consumes at least one character. -/
def extractLoop : Nat → List Char → List String
  | 0, _ => []
  | _ + 1, [] => []
  | fuel + 1, c :: cs =>
    if listStartsWith unknownArgPat (c :: cs) then
      let rest := (c :: cs).drop unknownArgPat.length
      let cap := rest.takeWhile (fun ch => ch != quoteChar)
      if cap.isEmpty then extractLoop fuel cs
      else
        match rest.drop cap.length with
        | _ :: after => String.mk cap :: extractLoop fuel after
        | [] => extractLoop fuel cs
    else extractLoop fuel cs

/-- All arguments named by unknown-argument diagnostics in an error stream. -/
def extractBadArgs (stderr : String) : List String :=
  extractLoop stderr.data.length stderr.data

/-- Models the comprehension `[arg for arg in cmd if arg not in self.bad_flags]`
(line 263). -/
def stripBad (bad cmd : List String) : List String :=
  cmd.filter (fun a => !(bad.contains a))

/-- Models `cmd = ['clang'] + [arg for arg in cmd if arg not in self.bad_flags]`
(lines 263 to 264). -/
def clangCmd (bad cmd : List String) : List String :=
  "clang" :: stripBad bad cmd

/-- Models the `for bad in re.finditer(...)` body (lines 277 to 285): each
reported argument is appended to `bad_flags` if new; if it is absent from the
working command the loop breaks, otherwise every occurrence is removed
(`while cmd.count(arg): cmd.remove(arg)`). -/
def stripReported : List String → List String → List String → List String × List String
  | [], bad, cmd => (bad, cmd)
  | a :: rest, bad, cmd =>
    if cmd.contains a then
      stripReported rest (if bad.contains a then bad else bad ++ [a])
        (cmd.filter (fun x => x != a))
    else ((if bad.contains a then bad else bad ++ [a]), cmd)

/-- Accumulator pass splitting a character list on a separator, keeping
empty pieces, as Python `str.split(sep)` does. -/
def splitOnCharAux (sep : Char) : List Char → List Char → List String
  | [], acc => [String.mk acc.reverse]
  | c :: cs, acc =>
    if c == sep then String.mk acc.reverse :: splitOnCharAux sep cs []
    else splitOnCharAux sep cs (c :: acc)

/-- Models Python `s.split('\n')` (lines 296 to 297): in particular the
split of the empty string is `[""]`. -/
def splitLines (s : String) : List String := splitOnCharAux (Char.ofNat 10) s.data []

/-- Observable outcome of one `call_clang` call: the final `stdout` and
`stderr` strings, the updated `bad_flags`, and how many times the compiler
process was spawned. -/
structure ClangRun where
  stdout : String
  stderr : String
  badFlags : List String
  spawns : Nat
deriving Repr, DecidableEq

/-- The `while retry > 0` loop of `call_clang` (lines 269 to 293).  `run`
is the external compiler: it maps a command line to the `(stdout, stderr)`
of the spawned process.  `stdout` is only latched on a successful attempt,
exactly as in the source where `stdout = out.decode('utf8')` sits after the
unknown-argument branch. -/
def callClangLoop (run : List String → String × String) :
    Nat → List String → List String → String → String → ClangRun
  | 0, _, bad, so, se => ⟨so, se, bad, 0⟩
  | retry + 1, cmd, bad, so, _ =>
    let res := run cmd
    if hasUnknownArg res.2 then
      let bc := stripReported (extractBadArgs res.2) bad cmd
      let rec1 := callClangLoop run retry bc.2 bc.1 so res.2
      ⟨rec1.stdout, rec1.stderr, rec1.badFlags, rec1.spawns + 1⟩
    else ⟨res.1, res.2, bad, 1⟩

/-- Models `Source.call_clang` (lines 247 to 297): strip known-bad flags,
prepend the executable name, run the retry loop with a budget of 5, and
split the requested stream on newlines. -/
def call_clang (run : List String → String × String) (bad cmd : List String)
    (retStderr : Bool) : List String × ClangRun :=
  let res := callClangLoop run 5 (clangCmd bad cmd) bad "" ""
  (splitLines (if retStderr then res.stderr else res.stdout), res)

/-- Constant compiler stub used in concrete runs: it always reports the
argument `-zz` as unknown. -/
def cexQuote : String := String.mk [quoteChar]

/-- Stderr text carrying one unknown-argument diagnostic for `-zz`. -/
def cexErr : String := "unknown argument: " ++ cexQuote ++ "-zz" ++ cexQuote

/-- Witness stub for claim C1. -/
def cexRunC1 : List String → String × String := fun _ => ("", cexErr)

/-- Compiler stub for the claim C2 counterexample: it always reports `-zz`
as unknown, and `-zz` is never part of the command line. -/
def cexRunC2 : List String → String × String := fun _ => ("", cexErr)

/-- Compiler stub for the claim C3 counterexample: every attempt produces
partial stdout `PARTIAL` together with the unknown-argument diagnostic. -/
def cexRunC3 : List String → String × String := fun _ => ("PARTIAL", cexErr)

/-- Models the pair-dedup append used when scanning clang verbose output
(lines 205 to 207) and build-database commands (lines 328 to 330):
`f = (flag, val); if f not in flags: flags.append(f)`. -/
def dedupAppend (flags : List (String × String)) (f : String × String) :
    List (String × String) :=
  if flags.contains f then flags else flags ++ [f]

/-- Folds a stream of regex matches through `dedupAppend`, as the
`for item in re.finditer(...)` loops do, starting from an empty list. -/
def dedupPairs (ms : List (String × String)) : List (String × String) :=
  ms.foldl dedupAppend []

/-- Models `list(chain.from_iterable(flags))` (lines 208 and 333): flattens
the `(flag, value)` pairs into the flat argument list. -/
def flattenPairs (ps : List (String × String)) : List String :=
  (ps.map (fun p => [p.1, p.2])).flatten

/-- Models the merge in `gather_candidates` (lines 516 to 519):
`flags = self.get_clang_flags(lang) + flags`, then, when the build-database
lookup produced a non-empty flag list, `flags = db_flags + flags`.  Plain
list concatenation; no deduplication across the sources. -/
def mergeFlags (clangFlags userFlags dbFlags : List String) : List String :=
  if dbFlags.isEmpty then clangFlags ++ userFlags
  else dbFlags ++ (clangFlags ++ userFlags)

/-- A directory path, leaf-first: `/proj/sub` is `["sub", "proj"]` and the
filesystem root `/` is `[]`, so `os.path.dirname` is `List.tail`. -/
abbrev Dir := List String

/-- Result of the upward `.clang` walk: the directories inspected, outermost
last, and the directory whose `.clang` file is parsed, if any. -/
structure WalkOut where
  visited : List Dir
  found : Option Dir
deriving Repr, DecidableEq

/-- Models the `while parent != last_parent` walk of `get_user_flags`
(lines 229 to 242).  `hasClang d` models
`os.path.isfile(os.path.join(d, '.clang'))`; `hasMarker d` models
`not set(os.listdir(d)).isdisjoint(repo_dirs)`, i.e. the children of `d`
contain one of the version-control markers `.git`, `.hg`, `.svn`.  Each
directory is checked for the flag file first; then the walk breaks at a
directory whose children lack a marker; otherwise it ascends.  At the root,
`dirname` is a fixed point, so `parent == last_parent` ends the loop with no
file found. -/
def user_flags_walk (hasClang hasMarker : Dir → Bool) : Dir → WalkOut
  | [] =>
    if hasClang [] then ⟨[[]], some []⟩ else ⟨[[]], none⟩
  | d :: rest =>
    if hasClang (d :: rest) then ⟨[d :: rest], some (d :: rest)⟩
    else if hasMarker (d :: rest) then
      ⟨(d :: rest) :: (user_flags_walk hasClang hasMarker rest).visited,
       (user_flags_walk hasClang hasMarker rest).found⟩
    else ⟨[d :: rest], none⟩

/-- Which flag source `get_user_flags` (lines 219 to 245) ends up using: the
`.clang` file of some directory, or the host-supplied
`deoplete#sources#clang#flags` fallback. -/
inductive FlagsSource where
  | fromFile : Dir → FlagsSource
  | fromHost : FlagsSource
deriving Repr, DecidableEq

/-- Flag-source selection of `get_user_flags` on a cache miss. -/
def get_user_flags_choice (hasClang hasMarker : Dir → Bool) (cwd : Dir) :
    FlagsSource :=
  match (user_flags_walk hasClang hasMarker cwd).found with
  | some f => FlagsSource.fromFile f
  | none => FlagsSource.fromHost

/-- Prefix test over the character data; models Python `str.startswith` in a
form the kernel evaluates. -/
def strStartsWith (s pre : String) : Bool := listStartsWith pre.data s.data

/-- One record of a `compile_commands.json` build database, with the fields
`find_db_flags` reads (lines 317 to 321): `directory`, `file`, and the full
compiler invocation string `command`. -/
structure DbEntry where
  directory : String
  file : String
  command : String
deriving Repr, DecidableEq

/-- Component stack for `normpath`: drop `.` and empty components (already
filtered out by the caller), resolve `..` against the stack, staying at the
root for absolute paths. -/
def normpathStack (isAbs : Bool) : List String → List String → List String
  | [], acc => acc.reverse
  | c :: rest, acc =>
    if c == ".." then
      match acc with
      | [] => if isAbs then normpathStack isAbs rest []
              else normpathStack isAbs rest [".."]
      | top :: accRest =>
        if top == ".." then normpathStack isAbs rest (c :: acc)
        else normpathStack isAbs rest accRest
    else normpathStack isAbs rest (c :: acc)

/-- Joins path components with `/`. -/
def joinWith (sep : String) : List String → String
  | [] => ""
  | [x] => x
  | x :: xs => x ++ sep ++ joinWith sep xs

/-- Models `os.path.normpath` for the separator `/`: collapse repeated
separators and `.` components and resolve `..`; an empty relative result is
`.`.  (The CPython special case for exactly two leading slashes is not
modelled; no path in this development has one.) -/
def normpath (p : String) : String :=
  if (splitOnCharAux (Char.ofNat 47) p.data []).filter
      (fun c => !(c == "") && !(c == ".")) |>.isEmpty then
    if strStartsWith p "/" then "/" else "."
  else
    (if strStartsWith p "/" then "/" else "") ++
      joinWith "/" (normpathStack (strStartsWith p "/")
        (((splitOnCharAux (Char.ofNat 47) p.data []).filter
          (fun c => !(c == "") && !(c == ".")))) [])

/-- Models `os.path.join(directory, val)`: an absolute second path wins;
an empty first path contributes nothing; otherwise concatenate with a
separator (a doubled separator is collapsed by `normpath` downstream). -/
def joinPath (dir val : String) : String :=
  if strStartsWith val "/" then val
  else if dir == "" then val
  else dir ++ "/" ++ val

/-- Models `os.path.normpath(os.path.join(directory, val))` (line 326). -/
def normjoin (dir val : String) : String := normpath (joinPath dir val)

/-- Models `os.path.splitext` on character data: split at the last dot of
the final path component, unless every character of that component before
the dot is itself a dot (hidden files keep their name whole). -/
def splitextData (p : List Char) : List Char × List Char :=
  let revBase := p.reverse.takeWhile (fun c => !(c == Char.ofNat 47))
  let extRev := revBase.takeWhile (fun c => !(c == Char.ofNat 46))
  if extRev.length == revBase.length then (p, [])
  else if (revBase.drop (extRev.length + 1)).all (fun c => c == Char.ofNat 46) then
    (p, [])
  else
    (p.take (p.length - extRev.length - 1), p.drop (p.length - extRev.length - 1))

/-- Models `os.path.splitext` (lines 303 and 319). -/
def splitext (p : String) : String × String :=
  ((splitextData p.data).1.asString, (splitextData p.data).2.asString)

/-- Resolution of one scanned `(flag, value)` pair against the record's
`directory` (lines 325 to 326): every flag except `-D` has its value passed
through `os.path.normpath(os.path.join(directory, value))`. -/
def resolvePair (dir : String) (p : String × String) : String × String :=
  if p.1 == "-D" then p else (p.1, normjoin dir p.2)

/-- Python dict assignment `entries[file] = v`: replace the value in place,
or append a new binding, preserving insertion order. -/
def assocSet : List (String × List String) → String → List String →
    List (String × List String)
  | [], k, v => [(k, v)]
  | (k0, v0) :: rest, k, v =>
    if k0 == k then (k0, v) :: rest else (k0, v0) :: assocSet rest k v

/-- The `for entry in json.load(fp)` fold of `find_db_flags` (lines 316 to
333).  `flags = []` is initialized once BEFORE this loop in the source, so
`(flag, value)` pairs accumulate across records, and each record's entry
stores the flattened accumulator at that point.  `scan` abstracts the regex
scan `re.finditer(r'(-[IDF]|' + flag_pattern + r')\s*(\S+)', command)`,
mapping a command string to its matched `(flag, value)` pairs in order. -/
def dbFold (scan : String → List (String × String)) :
    List DbEntry → List (String × String) → List (String × List String) →
    List (String × String) × List (String × List String)
  | [], flags, entries => (flags, entries)
  | e :: rest, flags, entries =>
    dbFold scan rest
      (((scan e.command).map (resolvePair e.directory)).foldl dedupAppend flags)
      (assocSet entries (splitext e.file).1
        (flattenPairs
          (((scan e.command).map (resolvePair e.directory)).foldl dedupAppend flags)))

/-- Models `find_db_flags` on the database-parse path (lines 299 to 342):
build the entries map from every record, then look up the requested
buffer's absolute path without extension. -/
def find_db_flags (scan : String → List (String × String)) (db : List DbEntry)
    (cwd bufname : String) : Option (List String) :=
  List.lookup (splitext (joinPath cwd bufname)).1 (dbFold scan db [] []).2

/-- Concrete flag-grammar scan stub for the claim C6 counterexample: command
`c1` carries one include flag, every other command one define flag. -/
def cexDbScan : String → List (String × String) := fun c =>
  if c == "c1" then [("-I", "inc")] else [("-D", "BAR")]

/-- Two-record database for the claim C6 counterexample. -/
def cexDb : List DbEntry :=
  [⟨"/a", "/a/x.c", "c1"⟩, ⟨"/a", "/a/y.c", "c2"⟩]

/-- The `-i`-family suffixes of `flag_pattern` (lines 20 to 30), in the
alternation order of the regex. -/
def iSuffixes : List String :=
  ["nclude-pch", "nclude-pth", "quote", "prefix", "sysroot", "system",
   "framework", "dirafter", "macros", "withprefix", "withprefixbefore",
   "withsysroot"]

/-- The optional language-gate prefixes `(?:-(?:internal|externc|c|cxx|objc))*?`
of `flag_pattern`. -/
def gatePrefixes : List String := ["-internal", "-externc", "-c", "-cxx", "-objc"]

/-- Does the character data begin with `-i` followed by one of the family
suffixes? -/
def matchIFamilyData (cs : List Char) : Bool :=
  listStartsWith "-i".data cs &&
    iSuffixes.any (fun suf => listStartsWith suf.data (cs.drop 2))

/-- Fueled matcher for zero or more gate prefixes followed by the
`-i`-family.  A prefix match exists iff some number of gates can be peeled;
each gate consumes at least two characters, so fuel equal to the length of
the data suffices. -/
def matchGatesFuel : Nat → List Char → Bool
  | 0, cs => matchIFamilyData cs
  | fuel + 1, cs =>
    matchIFamilyData cs ||
      gatePrefixes.any (fun g =>
        listStartsWith g.data cs && matchGatesFuel fuel (cs.drop g.data.length))

/-- Models `re.match(r'(-[IDF]|' + flag_pattern + r')', flag)` (lines 181 and
320): some prefix of the token matches `-I`, `-D`, `-F`, `-resource-dir`, or
gate prefixes followed by an `-i`-family flag. -/
def matchesPathFlag (s : String) : Bool :=
  listStartsWith "-I".data s.data || listStartsWith "-D".data s.data ||
  listStartsWith "-F".data s.data ||
  listStartsWith "-resource-dir".data s.data ||
  matchGatesFuel s.data.length s.data

/-- The fixed platform-version alias table `darwin_versions`
(lines 60 to 76). -/
def darwin_versions : List (String × String × Nat) :=
  [("10.1", ("10.1.5", 1010)), ("10.1.5", ("10.1.5", 1010)),
   ("10.2", ("10.2.8", 1020)), ("10.2.8", ("10.2.8", 1020)),
   ("10.3", ("10.3.9", 1030)), ("10.3.0", ("10.3.0", 1030)),
   ("10.3.9", ("10.3.9", 1030)), ("10.4", ("10.4u", 1040)),
   ("10.5", ("10.5", 1050)), ("10.6", ("10.6", 1060)),
   ("10.7", ("10.7", 1070)), ("10.8", ("10.8", 1080)),
   ("10.9", ("10.9", 1090)), ("10.10", ("10.10", 100000)),
   ("10.11", ("10.11", 101100))]

/-- Replace every tilde character by `home`; models
`flag.replace('~', home)` (line 182). -/
def replaceTilde (home : String) : List Char → List Char
  | [] => []
  | c :: cs =>
    if c == Char.ofNat 126 then home.data ++ replaceTilde home cs
    else c :: replaceTilde home cs

/-- Everything after the first `=`; models `flag.split('=', 1)[1]`
(line 176). -/
def afterFirstEq (cs : List Char) : List Char :=
  (cs.dropWhile (fun c => !(c == Char.ofNat 61))).drop 1

/-- The tilde-substitution condition of lines 179 to 181: the token starts
with `~`, or contains `~` and prefix-matches the `-[IDF]`/path-flag
grammar. -/
def tildeCond (flag : String) : Bool :=
  strStartsWith flag "~" ||
    (flag.data.any (fun c => c == Char.ofNat 126) && matchesPathFlag flag)

/-- Per-token tilde expansion (line 182). -/
def tildeExpand (home : String) (flag : String) : String :=
  if tildeCond flag then String.mk (replaceTilde home flag.data) else flag

/-- One iteration of the `for i, flag in enumerate(flags)` loop of
`clean_flags` (lines 173 to 183).  `expandvars` abstracts
`os.path.expandvars`, which is applied to EVERY token first (line 174); a
token then starting with `-darwin=` updates the recorded platform version
via the alias table and is dropped (lines 175 to 177); otherwise the token
is appended after conditional tilde expansion. -/
def cleanFlagsStep (expandvars : String → String) (home : String)
    (st : List String × Option (String × Nat)) (flag0 : String) :
    List String × Option (String × Nat) :=
  if strStartsWith (expandvars flag0) "-darwin=" then
    (st.1, List.lookup ((afterFirstEq (expandvars flag0).data).asString) darwin_versions)
  else
    (st.1 ++ [tildeExpand home (expandvars flag0)], st.2)

/-- Models `clean_flags` (lines 167 to 186) on an already-tokenized list:
the cleaned tokens together with the final recorded platform version
(`self.darwin_version`). -/
def clean_flags (expandvars : String → String) (home : String)
    (dv : Option (String × Nat)) (flags : List String) :
    List String × Option (String × Nat) :=
  flags.foldl (cleanFlagsStep expandvars home) ([], dv)

/-- Environment stub for the claim C8 counterexample: the variable `FOO`
holds `bar`, so `os.path.expandvars` rewrites the token `$FOO`. -/
def cexEnv : String → String := fun s => if s == "$FOO" then "bar" else s

/-- Filesystem abstraction for `generate_pch`: an association of paths to
modification times; presence of a binding models `os.path.exists`. -/
abbrev FS := List (String × Nat)

/-- Models `os.path.exists` over the abstract filesystem. -/
def fsExists (fs : FS) (p : String) : Bool := (List.lookup p fs).isSome

/-- Models `os.path.getmtime` over the abstract filesystem (only read on
paths that exist). -/
def fsMtime (fs : FS) (p : String) : Nat := (List.lookup p fs).getD 0

/-- The PCH cache directory `os.path.join(tempfile.gettempdir(),
'deoplete-clang2')` (line 46), with the temp directory modelled as `/tmp`. -/
def pch_cache : String := "/tmp/deoplete-clang2"

/-- Models `os.path.basename`: the part after the last separator. -/
def basename (p : String) : String :=
  ((p.data.reverse.takeWhile (fun c => !(c == Char.ofNat 47))).reverse).asString

/-- The cached artifact path for a prefix header (lines 355 to 366):
`'%s.%s.h' % (os.path.basename(pch), h.hexdigest())` inside the cache
directory, where the hash is fed every string of `chain(cmd, flags)` and
then the header path.  `hex` abstracts `hashlib.sha1` over that string
sequence. -/
def pchArtifact (hex : List String → String) (cmd flags : List String)
    (pch : String) : String :=
  pch_cache ++ "/" ++ basename pch ++ "." ++ hex (cmd ++ flags ++ [pch]) ++ ".h"

/-- The staleness test of lines 368 to 369: the artifact does not exist, or
the header is newer than the artifact. -/
def pchStale (fs : FS) (pch generated : String) : Bool :=
  !(fsExists fs generated) || decide (fsMtime fs pch > fsMtime fs generated)

/-- The `for pch in glob.glob(...)` loop of `generate_pch` (lines 362 to
374).  `emit` abstracts the filesystem effect of the `-emit-pch` compiler
invocation at lines 370 to 371 (it may or may not create the artifact).
Returns the possibly extended `cmd`, the filesystem after any regeneration,
and the artifact paths for which the compiler was invoked.  When the
artifact exists after the staleness handling, `-include-pch` is appended and
the loop breaks; otherwise the next header is tried. -/
def generatePchLoop (emit : FS → String → FS) (hex : List String → String)
    (cmd flags : List String) : FS → List String → List String × FS × List String
  | fs, [] => (cmd, fs, [])
  | fs, pch :: rest =>
    if pchStale fs pch (pchArtifact hex cmd flags pch) then
      if fsExists (emit fs (pchArtifact hex cmd flags pch))
          (pchArtifact hex cmd flags pch) then
        (cmd ++ ["-include-pch", pchArtifact hex cmd flags pch],
         emit fs (pchArtifact hex cmd flags pch), [pchArtifact hex cmd flags pch])
      else
        ((generatePchLoop emit hex cmd flags
            (emit fs (pchArtifact hex cmd flags pch)) rest).1,
         (generatePchLoop emit hex cmd flags
            (emit fs (pchArtifact hex cmd flags pch)) rest).2.1,
         pchArtifact hex cmd flags pch ::
           (generatePchLoop emit hex cmd flags
              (emit fs (pchArtifact hex cmd flags pch)) rest).2.2)
    else
      if fsExists fs (pchArtifact hex cmd flags pch) then
        (cmd ++ ["-include-pch", pchArtifact hex cmd flags pch], fs, [])
      else
        generatePchLoop emit hex cmd flags fs rest

/-- Models `generate_pch` (lines 344 to 376): an empty working directory
returns the inputs unchanged (lines 359 to 360); otherwise the per-header
loop runs over `globs`, the result of
`glob.glob(os.path.join(cwd, '*-Prefix.pch'))`.  The `flags` list is never
modified; only `cmd` may gain an `-include-pch` argument. -/
def generate_pch (emit : FS → String → FS) (hex : List String → String)
    (cwd : String) (globs : List String) (cmd flags : List String) (fs : FS) :
    List String × FS × List String :=
  if cwd == "" then (cmd, fs, [])
  else generatePchLoop emit hex cmd flags fs globs

/-- The memo of the previous request (`self.last`, initialized at line 133,
written at lines 549 to 554).  Python reads it with `{}.get(key, default)`,
so a cleared cache behaves as this record with default field values. -/
structure LastState where
  input : String
  line : Nat
  col : Nat
  completions : List String
deriving Repr, DecidableEq

/-- The per-instance state read by the reuse decision: `self.last` and
`self.scope_completions`.  Completion items are opaque payloads here,
modelled as strings. -/
structure SrcState where
  last : LastState
  scope_completions : List String
deriving Repr, DecidableEq

/-- The request-context fields read by `gather_candidates` before any
compiler work (lines 448 to 465): the typed line, the filetype, the
completion prefix, the configured minimum trigger length, whether
`get_complete_position` stored the trigger pattern in the context, the
completion column (`complete_position`) and the buffer line. -/
structure ReqCtx where
  input : String
  filetype : String
  complete_str : String
  min_length : Nat
  hasPattern : Bool
  pos : Nat
  line : Nat
deriving Repr, DecidableEq

/-- Objective-C family test `filetype in ('objc', 'objcpp')` (lines 146 and
481). -/
def isObjc (ft : String) : Bool := ft == "objc" || ft == "objcpp"

/-- Suffix test over the character data; models `str.endswith` and anchored
regex suffix matching. -/
def strEndsWith (s suf : String) : Bool :=
  listStartsWith suf.data.reverse s.data.reverse

/-- The `(?:\S\s+)$` alternative of the Objective-C trigger pattern: one or
more trailing whitespace characters preceded by a non-space. -/
def endsNonspaceThenSpaces (s : String) : Bool :=
  !(s.data.reverse.takeWhile (fun c => c.isWhitespace)).isEmpty &&
    (match s.data.reverse.dropWhile (fun c => c.isWhitespace) with
     | [] => false
     | c :: _ => !c.isWhitespace)

/-- Models `re.search(pattern + r'$', input)` for the trigger pattern built
by `get_complete_position` (lines 145 to 150): `->` or `.`, extended for the
Objective-C family with `:`, `@`, `[`, or a non-space followed by
whitespace, matched at the end of the typed input. -/
def endsWithTrigger (objc : Bool) (input : String) : Bool :=
  strEndsWith input "->" || strEndsWith input "." ||
  (objc && (strEndsWith input ":" || strEndsWith input "@" ||
            strEndsWith input "[" || endsNonspaceThenSpaces input))

/-- Models `re.search(r'(?:\s+|(?:[\[\(:])\s*|@)$', input)` (line 478): the
input ends with whitespace, or with `[`, `(`, `:` (optionally followed by
whitespace, which the first alternative already covers), or with `@`. -/
def scopePosAtEnd (input : String) : Bool :=
  match input.data.reverse with
  | [] => false
  | c :: _ =>
    c.isWhitespace || c == Char.ofNat 91 || c == Char.ofNat 40 ||
    c == Char.ofNat 58 || c == Char.ofNat 64

/-- Models Python `str.rstrip()` (line 483). -/
def rstrip (s : String) : String :=
  (s.data.reverse.dropWhile (fun c => c.isWhitespace)).reverse.asString

/-- The `scope_reuse` guard (lines 481 to 483): outside the Objective-C
family always true; inside it, the new input must differ from the previous
input and agree with it after stripping trailing whitespace. -/
def scopeReuse (ctx : ReqCtx) (lastInput : String) : Bool :=
  !(isObjc ctx.filetype) ||
    (!(ctx.input == lastInput) && (rstrip ctx.input == rstrip lastInput))

/-- The supported-language table `lang_names` (lines 39 to 44). -/
def lang_names : List (String × String) :=
  [("c", "c"), ("cpp", "c++"), ("objc", "objective-c"),
   ("objcpp", "objective-c++")]

/-- The `length_exemption` test (lines 455 to 456): the stored trigger
pattern exists and matches at the end of the input. -/
def lengthExemption (ctx : ReqCtx) : Bool :=
  ctx.hasPattern && endsWithTrigger (isObjc ctx.filetype) ctx.input

/-- How `gather_candidates` answers before doing any compiler work:
`stop xs` returns `xs` without spawning the compiler; `recompute` proceeds
to `call_clang`. -/
inductive GatherStep where
  | stop : List String → GatherStep
  | recompute : GatherStep
deriving Repr, DecidableEq

/-- The decision prefix of `gather_candidates` (lines 448 to 507), in
source order: the minimum-prefix-length guard (lines 458 to 461), the
same-line-and-column exact-reuse check (lines 472 to 474), the scope-reuse
check (lines 478 to 487), then — after flag gathering, which spawns no
compiler — the unsupported-filetype guard (lines 505 to 507).  Everything
past that point reaches `call_clang`. -/
def gather_step (st : SrcState) (ctx : ReqCtx) : GatherStep :=
  if !(lengthExemption ctx) && decide (ctx.complete_str.length < ctx.min_length) then
    GatherStep.stop []
  else if st.last.line == ctx.line && st.last.col == ctx.pos then
    GatherStep.stop st.last.completions
  else if scopeReuse ctx st.last.input && st.last.line == ctx.line &&
      scopePosAtEnd ctx.input && !(st.scope_completions.isEmpty) then
    GatherStep.stop st.scope_completions
  else if (List.lookup ctx.filetype lang_names).isNone then
    GatherStep.stop []
  else
    GatherStep.recompute

/-! Helper lemmas about the retry loop. -/

theorem contains_eq_false_of_not_mem {α : Type} [BEq α] [LawfulBEq α]
    {l : List α} {a : α} (h : a ∉ l) :
    l.contains a = false := by
  by_contra hc
  exact h (List.elem_iff.mp (Bool.of_not_eq_false hc))

theorem contains_eq_true_of_mem {α : Type} [BEq α] [LawfulBEq α]
    {l : List α} {a : α} (h : a ∈ l) :
    l.contains a = true := List.elem_iff.mpr h

theorem not_mem_filter_bne_self (a : String) (cmd : List String) :
    a ∉ cmd.filter (fun x => x != a) := by
  intro h
  have := (List.mem_filter.mp h).2
  simp at this

theorem stripReported_single_snd (a : String) (bad cmd : List String) :
    (stripReported [a] bad cmd).2 = cmd.filter (fun x => x != a) := by
  by_cases hc : a ∈ cmd
  · simp only [stripReported, contains_eq_true_of_mem hc, if_true]
  · simp only [stripReported, contains_eq_false_of_not_mem hc, Bool.false_eq_true, if_false]
    exact (List.filter_eq_self.mpr (fun x hx => by
      have : x ≠ a := fun he => hc (he ▸ hx)
      simpa using this)).symm

theorem stripReported_single_fst_mem (a : String) (bad cmd : List String) :
    a ∈ (stripReported [a] bad cmd).1 := by
  have hb : a ∈ (if bad.contains a then bad else bad ++ [a]) := by
    split
    · next htrue => exact List.elem_iff.mp htrue
    · exact List.mem_append_right _ (List.mem_singleton.mpr rfl)
  by_cases hc : a ∈ cmd
  · simp only [stripReported, contains_eq_true_of_mem hc, if_true]
    exact hb
  · simp only [stripReported, contains_eq_false_of_not_mem hc, Bool.false_eq_true, if_false]
    exact hb

/-- One failing step of the retry loop, with the recursion depth abstract so
that rewriting unfolds exactly one attempt. -/
theorem callClangLoop_step (run : List String → String × String) (retry : Nat)
    (cmd bad : List String) (so se : String)
    (h : hasUnknownArg (run cmd).2 = true) :
    callClangLoop run (retry + 1) cmd bad so se =
      ⟨(callClangLoop run retry (stripReported (extractBadArgs (run cmd).2) bad cmd).2
          (stripReported (extractBadArgs (run cmd).2) bad cmd).1 so (run cmd).2).stdout,
       (callClangLoop run retry (stripReported (extractBadArgs (run cmd).2) bad cmd).2
          (stripReported (extractBadArgs (run cmd).2) bad cmd).1 so (run cmd).2).stderr,
       (callClangLoop run retry (stripReported (extractBadArgs (run cmd).2) bad cmd).2
          (stripReported (extractBadArgs (run cmd).2) bad cmd).1 so (run cmd).2).badFlags,
       (callClangLoop run retry (stripReported (extractBadArgs (run cmd).2) bad cmd).2
          (stripReported (extractBadArgs (run cmd).2) bad cmd).1 so (run cmd).2).spawns + 1⟩ := by
  simp only [callClangLoop, h, if_true]

/-- When every attempt's stderr carries the same single unknown-argument
diagnostic for `a` and `a` is already absent from the command, each attempt
breaks out of the token loop with the command unchanged, and the `while`
loop keeps spawning until the retry budget is exhausted. -/
theorem callClangLoop_allfail (run : List String → String × String) (a : String)
    (H : ∀ c, hasUnknownArg (run c).2 = true ∧ extractBadArgs (run c).2 = [a])
    (cmd : List String) (hc : a ∉ cmd) :
    ∀ (n : Nat) (bad : List String) (so se : String),
      (callClangLoop run (n + 1) cmd bad so se).stdout = so ∧
      (callClangLoop run (n + 1) cmd bad so se).stderr = (run cmd).2 ∧
      (callClangLoop run (n + 1) cmd bad so se).spawns = n + 1 ∧
      a ∈ (callClangLoop run (n + 1) cmd bad so se).badFlags := by
  have hcmd : cmd.filter (fun x => x != a) = cmd :=
    List.filter_eq_self.mpr (fun x hx => by
      have : x ≠ a := fun he => hc (he ▸ hx)
      simpa using this)
  intro n
  induction n with
  | zero =>
    intro bad so se
    rw [callClangLoop_step run 0 cmd bad so se (H cmd).1, (H cmd).2]
    exact ⟨rfl, rfl, rfl, stripReported_single_fst_mem a bad cmd⟩
  | succ m ih =>
    intro bad so se
    rw [callClangLoop_step run (m + 1) cmd bad so se (H cmd).1, (H cmd).2,
      stripReported_single_snd, hcmd]
    obtain ⟨h1, h2, h3, h4⟩ := ih (stripReported [a] bad cmd).1 so (run cmd).2
    exact ⟨h1, h2, by simp [h3], h4⟩

/-- Full characterization of `call_clang` when every attempt reports the
same single unknown argument `a`: five spawns, empty latched stdout, final
stderr coming from the stabilized command, and `a` recorded in `bad_flags`. -/
theorem call_clang_allfail (run : List String → String × String) (a : String)
    (bad cmd : List String) (retStderr : Bool)
    (H : ∀ c, hasUnknownArg (run c).2 = true ∧ extractBadArgs (run c).2 = [a]) :
    (call_clang run bad cmd retStderr).2.spawns = 5 ∧
    (call_clang run bad cmd retStderr).2.stdout = "" ∧
    (call_clang run bad cmd retStderr).2.stderr =
      (run ((clangCmd bad cmd).filter (fun x => x != a))).2 ∧
    a ∈ (call_clang run bad cmd retStderr).2.badFlags := by
  have h5 : (5 : Nat) = 4 + 1 := rfl
  have hnot := not_mem_filter_bne_self a (clangCmd bad cmd)
  obtain ⟨h1, h2, h3, h4⟩ :=
    callClangLoop_allfail run a H ((clangCmd bad cmd).filter (fun x => x != a)) hnot 3
      (stripReported [a] bad (clangCmd bad cmd)).1 "" (run (clangCmd bad cmd)).2
  simp only [call_clang, h5]
  rw [callClangLoop_step run 4 (clangCmd bad cmd) bad "" "" (H (clangCmd bad cmd)).1,
    (H (clangCmd bad cmd)).2, stripReported_single_snd]
  exact ⟨by simp [h3], h1, h2, h4⟩

/-- Claim C1 (confirmed): when every attempt's error stream reports the same
unknown-argument diagnostic, `call_clang` spawns the compiler exactly 5 times
and returns, the offending argument is recorded in `bad_flags`, and the
bad-flag filter of every future invocation strips it from the argument
list. -/
theorem call_clang_retry_bound (run : List String → String × String) (a : String)
    (bad cmd : List String) (retStderr : Bool)
    (H : ∀ c, hasUnknownArg (run c).2 = true ∧ extractBadArgs (run c).2 = [a]) :
    (call_clang run bad cmd retStderr).2.spawns = 5 ∧
    a ∈ (call_clang run bad cmd retStderr).2.badFlags ∧
    ∀ future : List String,
      a ∉ stripBad (call_clang run bad cmd retStderr).2.badFlags future := by
  obtain ⟨h1, _, _, h4⟩ := call_clang_allfail run a bad cmd retStderr H
  refine ⟨h1, h4, ?_⟩
  intro future hf
  have := (List.mem_filter.mp hf).2
  rw [contains_eq_true_of_mem h4] at this
  simp at this

/-- Witness for claim C1 at a concrete stub: five spawns and `-zz` recorded. -/
theorem call_clang_retry_bound_witness :
    (call_clang cexRunC1 [] ["-a"] false).2.spawns = 5 ∧
    "-zz" ∈ (call_clang cexRunC1 [] ["-a"] false).2.badFlags :=
  ⟨(call_clang_retry_bound cexRunC1 "-zz" [] ["-a"] false
      (fun _ => ⟨(by decide : hasUnknownArg cexErr = true),
                 (by decide : extractBadArgs cexErr = ["-zz"])⟩)).1,
   (call_clang_retry_bound cexRunC1 "-zz" [] ["-a"] false
      (fun _ => ⟨(by decide : hasUnknownArg cexErr = true),
                 (by decide : extractBadArgs cexErr = ["-zz"])⟩)).2.1⟩

/-- Counterexample to claim C2 as stated: the offending token `-zz` is absent
from the working argument list on the very first attempt, yet the invoker
does not abort retrying early: it spawns the compiler 5 times, not 1.  The
`break` at line 283 of the source only leaves the inner token-extraction
loop; the `while` retry loop then runs `retry -= 1; continue`. -/
theorem call_clang_no_early_abort_cex :
    "-zz" ∉ clangCmd [] ["-x"] ∧
    (call_clang cexRunC2 [] ["-x"] false).2.spawns = 5 ∧
    (call_clang cexRunC2 [] ["-x"] false).2.spawns ≠ 1 := by
  refine ⟨by decide, by decide, by decide⟩

/-- Claim C2 (corrected): when an offending token reported by the diagnostic
is absent from the current working argument list, the token-extraction loop
breaks without changing the list, but the invoker still retries: the retry
budget is consumed and the compiler is spawned 5 times in total. -/
theorem call_clang_break_keeps_retrying (run : List String → String × String)
    (a : String) (bad cmd : List String) (retStderr : Bool)
    (H : ∀ c, hasUnknownArg (run c).2 = true ∧ extractBadArgs (run c).2 = [a])
    (hnot : a ∉ clangCmd bad cmd) :
    (stripReported [a] bad (clangCmd bad cmd)).2 = clangCmd bad cmd ∧
    (call_clang run bad cmd retStderr).2.spawns = 5 := by
  constructor
  · rw [stripReported_single_snd]
    exact List.filter_eq_self.mpr (fun x hx => by
      have : x ≠ a := fun he => hnot (he ▸ hx)
      simpa using this)
  · exact (call_clang_allfail run a bad cmd retStderr H).1

/-- Witness for the corrected claim C2 at a concrete stub. -/
theorem call_clang_break_keeps_retrying_witness :
    "-zz" ∉ clangCmd [] ["-b"] ∧
    (call_clang cexRunC2 [] ["-b"] true).2.spawns = 5 :=
  ⟨by decide,
   (call_clang_break_keeps_retrying cexRunC2 "-zz" [] ["-b"] true
      (fun _ => ⟨(by decide : hasUnknownArg cexErr = true),
                 (by decide : extractBadArgs cexErr = ["-zz"])⟩)
      (by decide)).2⟩

/-- Counterexample to claim C3 as stated: when all 5 attempts are exhausted
and stdout was the requested stream, `call_clang` does not return the last
attempt's partial stdout (`["PARTIAL"]`); it returns the never-assigned
initial empty string split on newlines, `[""]`, because `stdout =
out.decode('utf8')` at line 292 of the source is only reached after a
successful attempt. -/
theorem call_clang_exhausted_stdout_cex :
    (call_clang cexRunC3 [] [] false).1 = [""] ∧
    (call_clang cexRunC3 [] [] false).1 ≠ ["PARTIAL"] := by
  refine ⟨by decide, by decide⟩

/-- Claim C3 (corrected): when all 5 attempts report an unknown argument,
the requested-stream rule only holds for stderr: with `ret_stderr` set the
call returns the final attempt's error stream split on newlines, but with
stdout requested it returns `[""]` (the initial empty string split on
newlines), discarding the last attempt's partial standard output. -/
theorem call_clang_exhausted_output (run : List String → String × String)
    (a : String) (bad cmd : List String)
    (H : ∀ c, hasUnknownArg (run c).2 = true ∧ extractBadArgs (run c).2 = [a]) :
    (call_clang run bad cmd true).1 =
      splitLines ((run ((clangCmd bad cmd).filter (fun x => x != a))).2) ∧
    (call_clang run bad cmd false).1 = [""] := by
  obtain ⟨_, _, hse, _⟩ := call_clang_allfail run a bad cmd true H
  obtain ⟨_, hso, _, _⟩ := call_clang_allfail run a bad cmd false H
  constructor
  · show splitLines ((call_clang run bad cmd true).2.stderr) = _
    rw [hse]
  · show splitLines ((call_clang run bad cmd false).2.stdout) = _
    rw [hso]
    rfl

/-- Witness for the corrected claim C3 at a concrete stub. -/
theorem call_clang_exhausted_output_witness :
    (call_clang cexRunC3 [] ["-c"] true).1 = [cexErr] ∧
    (call_clang cexRunC3 [] ["-c"] false).1 = [""] := by
  have h := call_clang_exhausted_output cexRunC3 "-zz" [] ["-c"]
    (fun _ => ⟨(by decide : hasUnknownArg cexErr = true),
               (by decide : extractBadArgs cexErr = ["-zz"])⟩)
  refine ⟨?_, h.2⟩
  rw [h.1]
  decide

/-! Flag-merge lemmas (claim C4). -/

theorem foldl_dedupAppend_nodup (ms : List (String × String)) :
    ∀ acc : List (String × String), acc.Nodup → (ms.foldl dedupAppend acc).Nodup := by
  induction ms with
  | nil => intro acc h; simpa using h
  | cons m rest ih =>
    intro acc h
    simp only [List.foldl_cons]
    apply ih
    unfold dedupAppend
    by_cases hm : m ∈ acc
    · simp only [contains_eq_true_of_mem hm, if_true]
      exact h
    · simp only [contains_eq_false_of_not_mem hm, Bool.false_eq_true, if_false]
      simp [List.nodup_append]
      exact ⟨h, hm⟩

theorem mem_foldl_dedupAppend (ms : List (String × String)) :
    ∀ (acc : List (String × String)) (f : String × String),
      f ∈ ms.foldl dedupAppend acc ↔ f ∈ acc ∨ f ∈ ms := by
  induction ms with
  | nil => intro acc f; simp
  | cons m rest ih =>
    intro acc f
    simp only [List.foldl_cons]
    rw [ih]
    unfold dedupAppend
    by_cases hm : m ∈ acc
    · simp only [contains_eq_true_of_mem hm, if_true, List.mem_cons]
      constructor
      · rintro (hf | hf)
        · exact Or.inl hf
        · exact Or.inr (Or.inr hf)
      · rintro (hf | hf | hf)
        · exact Or.inl hf
        · exact Or.inl (hf ▸ hm)
        · exact Or.inr hf
    · simp only [contains_eq_false_of_not_mem hm, Bool.false_eq_true, if_false,
        List.mem_append, List.mem_singleton, List.mem_cons]
      tauto

/-- Counterexample to claim C4 as stated: the default-clang-flag list and the
build-database list both contain the exact pair `(-I, /x)`, yet the merged
request-level list produced by lines 516 to 519 keeps both occurrences; the
claimed cross-source deduplication would keep only one. -/
theorem mergeFlags_no_cross_dedup_cex :
    mergeFlags ["-I", "/x"] [] ["-I", "/x"] = ["-I", "/x", "-I", "/x"] ∧
    mergeFlags ["-I", "/x"] [] ["-I", "/x"] ≠ ["-I", "/x"] := by
  exact ⟨by decide, by decide⟩

/-- Claim C4 (corrected): deduplication by exact `(flagName, value)` pair
happens only inside a single source's extraction scan — `dedupPairs` yields a
duplicate-free list whose members are exactly the scanned pairs — while the
request-level merge of the three sources is plain concatenation that keeps
every per-source occurrence. -/
theorem flag_merge_dedup_per_source (ms : List (String × String))
    (clangFlags userFlags dbFlags : List String) (hdb : dbFlags ≠ []) :
    (dedupPairs ms).Nodup ∧
    (∀ f, f ∈ dedupPairs ms ↔ f ∈ ms) ∧
    mergeFlags clangFlags userFlags dbFlags = dbFlags ++ clangFlags ++ userFlags := by
  refine ⟨foldl_dedupAppend_nodup ms [] List.nodup_nil, ?_, ?_⟩
  · intro f
    rw [dedupPairs, mem_foldl_dedupAppend]
    simp
  · rw [mergeFlags, if_neg (by simpa using hdb)]
    simp [List.append_assoc]

/-- Witness for the corrected claim C4 at concrete inputs. -/
theorem flag_merge_dedup_per_source_witness :
    (dedupPairs [("-I", "a"), ("-I", "a")]).Nodup ∧
    mergeFlags ["c"] ["u"] ["d"] = ["d"] ++ ["c"] ++ ["u"] :=
  ⟨(flag_merge_dedup_per_source [("-I", "a"), ("-I", "a")] ["c"] ["u"] ["d"]
      (by decide)).1,
   (flag_merge_dedup_per_source [("-I", "a"), ("-I", "a")] ["c"] ["u"] ["d"]
      (by decide)).2.2⟩

/-! Walk lemmas (claim C5). -/

/-- Counterexample to claim C5's instance: with `/proj/.git` present, no
`.clang` file anywhere, and no marker among the children of `/proj/sub`,
the walk rooted at `/proj/sub` stops at `/proj/sub` itself — the first
visited directory lacking a marker — and never visits `/proj`; the claim
says it stops at `/proj`.  The fallback to host-supplied flags does hold. -/
theorem user_flags_walk_stops_at_cwd_cex :
    (user_flags_walk (fun _ => false) (fun p => p == ["proj"]) ["sub", "proj"]).visited
      = [["sub", "proj"]] ∧
    ["proj"] ∉
      (user_flags_walk (fun _ => false) (fun p => p == ["proj"]) ["sub", "proj"]).visited ∧
    get_user_flags_choice (fun _ => false) (fun p => p == ["proj"]) ["sub", "proj"]
      = FlagsSource.fromHost := by
  exact ⟨by decide, by decide, by decide⟩

/-- Claim C5 (corrected): the walk starts at the working directory itself and
visits ancestors in order (each next visited directory is the parent of the
previous one); every visited directory except the last has a version-control
marker and no flag file; and the walk terminates at the first visited
directory that either holds the flag file (which is returned), or lacks a
marker (falling back to host-supplied flags), or is the filesystem root.  In
the claim's `/proj/sub` instance the first marker-free directory is
`/proj/sub` itself, so the walk stops there, not at `/proj`. -/
theorem user_flags_walk_characterization (hasClang hasMarker : Dir → Bool)
    (cwd : Dir) :
    (user_flags_walk hasClang hasMarker cwd).visited ≠ [] ∧
    (user_flags_walk hasClang hasMarker cwd).visited.head? = some cwd ∧
    List.Chain' (fun a b => b = a.tail)
      (user_flags_walk hasClang hasMarker cwd).visited ∧
    (∀ d ∈ (user_flags_walk hasClang hasMarker cwd).visited.dropLast,
      hasClang d = false ∧ hasMarker d = true) ∧
    (∀ l, (user_flags_walk hasClang hasMarker cwd).visited.getLast? = some l →
      (hasClang l = true ∧
        (user_flags_walk hasClang hasMarker cwd).found = some l) ∨
      (hasClang l = false ∧ hasMarker l = false ∧
        (user_flags_walk hasClang hasMarker cwd).found = none) ∨
      (l = [] ∧ hasClang l = false ∧
        (user_flags_walk hasClang hasMarker cwd).found = none)) := by
  induction cwd with
  | nil =>
    by_cases hc : hasClang [] = true
    · simp only [user_flags_walk, hc, if_true]
      refine ⟨by simp, by simp, by simp, by simp, ?_⟩
      intro l hl
      simp at hl
      subst hl
      simp [hc]
    · simp only [user_flags_walk, hc, Bool.false_eq_true, if_false]
      refine ⟨by simp, by simp, by simp, by simp, ?_⟩
      intro l hl
      simp at hl
      subst hl
      have hc2 : hasClang [] = false := by simpa using hc
      simp [hc2]
  | cons d rest ih =>
    by_cases hc : hasClang (d :: rest) = true
    · simp only [user_flags_walk, hc, if_true]
      refine ⟨by simp, by simp, by simp, by simp, ?_⟩
      intro l hl
      simp at hl
      subst hl
      simp [hc]
    · by_cases hm : hasMarker (d :: rest) = true
      · simp only [user_flags_walk, hc, Bool.false_eq_true, if_false, hm, if_true]
        obtain ⟨hne, hhead, hchain, hdrop, hlast⟩ := ih
        obtain ⟨t, ht⟩ := List.head?_eq_some_iff.mp hhead
        refine ⟨by simp, by simp, ?_, ?_, ?_⟩
        · rw [ht, List.chain'_cons]
          exact ⟨rfl, ht ▸ hchain⟩
        · intro x hx
          rw [List.dropLast_cons_of_ne_nil hne] at hx
          rcases List.mem_cons.mp hx with hx | hx
          · subst hx
            exact ⟨by simpa using hc, hm⟩
          · exact hdrop x hx
        · intro l hl
          rw [ht] at hl
          rw [ht] at hlast
          cases t with
          | nil => exact hlast l hl
          | cons u us => exact hlast l hl
      · simp only [user_flags_walk, hc, Bool.false_eq_true, if_false, hm, if_false]
        refine ⟨by simp, by simp, by simp, by simp, ?_⟩
        intro l hl
        simp at hl
        subst hl
        have hc2 : hasClang (d :: rest) = false := by simpa using hc
        have hm2 : hasMarker (d :: rest) = false := by simpa using hm
        simp [hc2, hm2]

/-- Witness for the corrected claim C5: a walk that ascends to the root with
markers everywhere and no flag file anywhere falls back to host flags. -/
theorem user_flags_walk_characterization_witness :
    (user_flags_walk (fun _ => false) (fun _ => true) ["p"]).found = none := by
  have h := (user_flags_walk_characterization (fun _ => false) (fun _ => true)
    ["p"]).2.2.2.2 [] (by decide)
  rcases h with ⟨hc, _⟩ | ⟨_, _, hf⟩ | ⟨_, _, hf⟩
  · exact absurd hc (by decide)
  · exact hf
  · exact hf

/-! Build-database lemmas (claim C6). -/

theorem assocSet_lookup_self (m : List (String × List String)) (k : String)
    (v : List String) : List.lookup k (assocSet m k v) = some v := by
  induction m with
  | nil => simp [assocSet, List.lookup]
  | cons p rest ih =>
    obtain ⟨k0, v0⟩ := p
    by_cases hk : k0 == k
    · simp [assocSet, hk, List.lookup, BEq.symm hk]
    · have hk2 : (k == k0) = false := by
        rcases Bool.eq_false_or_eq_true (k == k0) with h | h
        · exact absurd (BEq.symm h) (by simpa using hk)
        · exact h
      simp [assocSet, hk, List.lookup, hk2, ih]

/-- Counterexample to claim C6 as stated: in a two-record database the entry
stored for the second record's file also contains the flag extracted from
the FIRST record's command (`flags = []` at line 316 sits outside the record
loop), so the index does not map each file to exactly its own record's
flags. -/
theorem find_db_flags_cross_record_cex :
    find_db_flags cexDbScan cexDb "/a" "y.c" = some ["-I", "/a/inc", "-D", "BAR"] ∧
    find_db_flags cexDbScan cexDb "/a" "y.c" ≠ some ["-D", "BAR"] := by
  exact ⟨by decide, by decide⟩

/-- Claim C6 (corrected): the pair accumulator is shared across records, so
each record's entry holds the deduplicated pairs of its own and all
preceding records' commands; in particular the entry of the final record is
exactly the flattened accumulator over the whole database. -/
theorem find_db_flags_accumulates (scan : String → List (String × String))
    (db : List DbEntry) (e : DbEntry) (flags0 : List (String × String))
    (entries0 : List (String × List String))
    (hlast : db.getLast? = some e) :
    List.lookup (splitext e.file).1 (dbFold scan db flags0 entries0).2 =
      some (flattenPairs (dbFold scan db flags0 entries0).1) := by
  induction db generalizing flags0 entries0 with
  | nil => simp at hlast
  | cons x rest ih =>
    cases rest with
    | nil =>
      simp at hlast
      subst hlast
      simp only [dbFold]
      exact assocSet_lookup_self _ _ _
    | cons y ys =>
      have hr : (x :: y :: ys).getLast? = (y :: ys).getLast? := rfl
      rw [hr] at hlast
      simp only [dbFold]
      exact ih _ _ hlast

/-- Witness for the corrected claim C6 at the concrete two-record database:
the last record's entry is the flattened whole-database accumulator. -/
theorem find_db_flags_accumulates_witness :
    List.lookup (splitext "/a/y.c").1 (dbFold cexDbScan cexDb [] []).2 =
      some (flattenPairs (dbFold cexDbScan cexDb [] []).1) :=
  find_db_flags_accumulates cexDbScan cexDb ⟨"/a", "/a/y.c", "c2"⟩ [] [] (by decide)

/-! Reuse-decision lemmas (claims C7 and C10). -/

/-- Counterexample to claim C7 as stated: the previous request cached
`["itemA"]` at line 10, column 5; the new request is at the same line 10 and
column 5, but its one-character prefix `a` is below the minimum trigger
length 2 and no trigger delimiter ends the input, so the guard at lines 458
to 461 returns `[]` before the reuse check at line 472 ever runs — not the
cached result set. -/
theorem gather_same_pos_not_unconditional_cex :
    gather_step ⟨⟨"x.", 10, 5, ["itemA"]⟩, []⟩ ⟨"x.a", "c", "a", 2, true, 5, 10⟩
      = GatherStep.stop [] ∧
    GatherStep.stop [] ≠ GatherStep.stop ["itemA"] := by
  exact ⟨by decide, by decide⟩

/-- Claim C7 (corrected): provided the request passes the
minimum-prefix-length guard (a trigger-pattern exemption or a prefix at
least as long as the configured minimum), a request on the same buffer line
and the same completion column as the previous one returns the previously
cached exact result set without reaching the compiler path. -/
theorem gather_same_pos_reuses (st : SrcState) (ctx : ReqCtx)
    (hlen : lengthExemption ctx = true ∨ ctx.min_length ≤ ctx.complete_str.length)
    (hline : st.last.line = ctx.line) (hcol : st.last.col = ctx.pos) :
    gather_step st ctx = GatherStep.stop st.last.completions := by
  unfold gather_step
  have h1 : (!(lengthExemption ctx) &&
      decide (ctx.complete_str.length < ctx.min_length)) = false := by
    rcases hlen with h | h
    · simp [h]
    · simp [Nat.not_lt.mpr h]
  rw [h1]
  simp [hline, hcol]

/-- Witness for the corrected claim C7 at a concrete state and request. -/
theorem gather_same_pos_reuses_witness :
    gather_step ⟨⟨"y.", 3, 4, ["w1"]⟩, []⟩ ⟨"y.ab", "c", "ab", 2, true, 4, 3⟩
      = GatherStep.stop ["w1"] :=
  gather_same_pos_reuses ⟨⟨"y.", 3, 4, ["w1"]⟩, []⟩ ⟨"y.ab", "c", "ab", 2, true, 4, 3⟩
    (Or.inr (by decide)) (by decide) (by decide)

/-- Counterexample to claim C10 as stated: the filetype `python` is not
supported, yet the request sits on the same line and column as the cached
previous request, and the exact-reuse check at line 472 runs BEFORE the
language guard at lines 505 to 507, so the call returns the non-empty cached
list, not the empty list. -/
theorem gather_unsupported_filetype_cex :
    List.lookup "python" lang_names = none ∧
    gather_step ⟨⟨"foo", 3, 7, ["cached1"]⟩, []⟩ ⟨"bar", "python", "ab", 2, false, 7, 3⟩
      = GatherStep.stop ["cached1"] ∧
    GatherStep.stop ["cached1"] ≠ GatherStep.stop [] := by
  exact ⟨by decide, by decide, by decide⟩

/-- Claim C10 (corrected): for a filetype outside the four supported
language variants, `gather_candidates` never reaches the compiler path (no
decision is `recompute`); and whenever the request is not answered from the
same-line reuse caches — for instance on a different buffer line than the
previous request — it returns the empty list. -/
theorem gather_unsupported_filetype (st : SrcState) (ctx : ReqCtx)
    (hft : List.lookup ctx.filetype lang_names = none) :
    gather_step st ctx ≠ GatherStep.recompute ∧
    (st.last.line ≠ ctx.line → gather_step st ctx = GatherStep.stop []) := by
  constructor
  · intro hcon
    unfold gather_step at hcon
    split_ifs at hcon with h1 h2 h3 h4
    exact h4 (by rw [hft]; rfl)
  · intro hne
    have hl : (st.last.line == ctx.line) = false := by simpa using hne
    unfold gather_step
    simp [hl, hft]

/-- Witness for the corrected claim C10 at a concrete state and request. -/
theorem gather_unsupported_filetype_witness :
    gather_step ⟨⟨"foo", 1, 0, ["c0"]⟩, []⟩ ⟨"zzz", "rust", "ab", 2, false, 0, 9⟩
      = GatherStep.stop [] :=
  (gather_unsupported_filetype ⟨⟨"foo", 1, 0, ["c0"]⟩, []⟩
    ⟨"zzz", "rust", "ab", 2, false, 0, 9⟩ (by decide)).2 (by decide)

/-! Normalization lemmas (claim C8). -/

/-- Counterexample to claim C8 as stated: the token `$FOO` matches neither
`-I`/`-D`/`-F` nor the path-bearing flag grammar, yet `clean_flags` rewrites
it to `bar` under an environment with `FOO=bar`, because
`os.path.expandvars` is applied unconditionally at line 174, before any
grammar check. -/
theorem clean_flags_env_all_tokens_cex :
    matchesPathFlag "$FOO" = false ∧
    (clean_flags cexEnv "/home/u" none ["$FOO"]).1 = ["bar"] ∧
    (clean_flags cexEnv "/home/u" none ["$FOO"]).1 ≠ ["$FOO"] := by
  exact ⟨by decide, by decide, by decide⟩

/-- Claim C8 (corrected): in `clean_flags`, environment-variable expansion
is applied to every token, unconditionally; only the home-directory tilde
substitution is conditioned — it fires when the (already env-expanded)
token starts with `~`, or contains `~` and prefix-matches an
include/define/framework flag or the path-bearing flag grammar.  The output
is exactly the env-expanded tokens, minus the `-darwin=` pseudo-flags, with
that conditional tilde expansion applied. -/
theorem clean_flags_characterization (expandvars : String → String)
    (home : String) (dv : Option (String × Nat)) (flags : List String) :
    (clean_flags expandvars home dv flags).1 =
      ((flags.map expandvars).filter
        (fun f => !(strStartsWith f "-darwin="))).map (tildeExpand home) := by
  suffices h : ∀ (fl : List String) (acc : List String) (d : Option (String × Nat)),
      (fl.foldl (cleanFlagsStep expandvars home) (acc, d)).1 =
        acc ++ ((fl.map expandvars).filter
          (fun f => !(strStartsWith f "-darwin="))).map (tildeExpand home) by
    simpa using h flags [] dv
  intro fl
  induction fl with
  | nil => intro acc d; simp
  | cons f rest ih =>
    intro acc d
    simp only [List.foldl_cons, List.map_cons, List.filter_cons]
    by_cases hd : strStartsWith (expandvars f) "-darwin=" = true
    · rw [show cleanFlagsStep expandvars home (acc, d) f =
        (acc, List.lookup ((afterFirstEq (expandvars f).data).asString) darwin_versions) by
          unfold cleanFlagsStep; rw [if_pos hd]]
      rw [ih]
      simp [hd]
    · have hd2 : strStartsWith (expandvars f) "-darwin=" = false :=
        Bool.not_eq_true _ ▸ hd
      rw [show cleanFlagsStep expandvars home (acc, d) f =
        (acc ++ [tildeExpand home (expandvars f)], d) by
          unfold cleanFlagsStep; rw [if_neg (by simp [hd2])]]
      rw [ih]
      simp [hd2]

/-! Precompiled-header lemmas (claim C9). -/

theorem generatePchLoop_cmd_shape (emit : FS → String → FS)
    (hex : List String → String) (cmd flags : List String) :
    ∀ (globs : List String) (fs : FS),
      (generatePchLoop emit hex cmd flags fs globs).1 = cmd ∨
      ∃ g, (generatePchLoop emit hex cmd flags fs globs).1 =
        cmd ++ ["-include-pch", g] := by
  intro globs
  induction globs with
  | nil => intro fs; exact Or.inl rfl
  | cons pch rest ih =>
    intro fs
    unfold generatePchLoop
    split_ifs with h1 h2 h3
    · exact Or.inr ⟨pchArtifact hex cmd flags pch, rfl⟩
    · exact ih (emit fs (pchArtifact hex cmd flags pch))
    · exact Or.inr ⟨pchArtifact hex cmd flags pch, rfl⟩
    · exact ih fs

/-- Claim C9 (confirmed): for the first matching prefix header of the
working directory, `generate_pch` re-invokes the compiler in header-emission
mode iff no cached artifact exists for the content-hash key or the header is
newer than the artifact; when the artifact exists afterwards it appends
`-include-pch` referencing it and stops, and over the whole loop at most one
`-include-pch` argument is appended, so at most one PCH is applied. -/
theorem generate_pch_spec (emit : FS → String → FS) (hex : List String → String)
    (cwd : String) (cmd flags : List String) (fs : FS) (pch : String)
    (rest : List String) (hcwd : (cwd == "") = false) :
    (pchStale fs pch (pchArtifact hex cmd flags pch) = false →
      generate_pch emit hex cwd (pch :: rest) cmd flags fs =
        (cmd ++ ["-include-pch", pchArtifact hex cmd flags pch], fs, [])) ∧
    (pchStale fs pch (pchArtifact hex cmd flags pch) = true →
      (generate_pch emit hex cwd (pch :: rest) cmd flags fs).2.2.head? =
        some (pchArtifact hex cmd flags pch)) ∧
    (pchStale fs pch (pchArtifact hex cmd flags pch) = true →
      fsExists (emit fs (pchArtifact hex cmd flags pch))
          (pchArtifact hex cmd flags pch) = true →
      generate_pch emit hex cwd (pch :: rest) cmd flags fs =
        (cmd ++ ["-include-pch", pchArtifact hex cmd flags pch],
         emit fs (pchArtifact hex cmd flags pch),
         [pchArtifact hex cmd flags pch])) ∧
    ((generate_pch emit hex cwd (pch :: rest) cmd flags fs).1 = cmd ∨
      ∃ g, (generate_pch emit hex cwd (pch :: rest) cmd flags fs).1 =
        cmd ++ ["-include-pch", g]) := by
  unfold generate_pch
  rw [if_neg (by simp [hcwd])]
  refine ⟨?_, ?_, ?_, ?_⟩
  · intro hfresh
    have hex1 : fsExists fs (pchArtifact hex cmd flags pch) = true := by
      unfold pchStale at hfresh
      rcases Bool.eq_false_or_eq_true (fsExists fs (pchArtifact hex cmd flags pch))
        with h | h
      · exact h
      · rw [h] at hfresh
        simp at hfresh
    unfold generatePchLoop
    rw [if_neg (by simp [hfresh]), if_pos hex1]
  · intro hstale
    unfold generatePchLoop
    rw [if_pos hstale]
    split_ifs with h2
    · rfl
    · rfl
  · intro hstale hemit
    unfold generatePchLoop
    rw [if_pos hstale, if_pos hemit]
  · exact generatePchLoop_cmd_shape emit hex cmd flags (pch :: rest) fs

/-- Witness for claim C9 at a concrete filesystem: the artifact is missing,
the stub compiler creates it, and the include argument is appended. -/
theorem generate_pch_spec_witness :
    generate_pch (fun fs g => (g, 5) :: fs) (fun _ => "h") "/p"
        ["/p/a-Prefix.pch"] ["-x"] ["-I"] [("/p/a-Prefix.pch", 10)] =
      (["-x", "-include-pch", "/tmp/deoplete-clang2/a-Prefix.pch.h.h"],
       [("/tmp/deoplete-clang2/a-Prefix.pch.h.h", 5), ("/p/a-Prefix.pch", 10)],
       ["/tmp/deoplete-clang2/a-Prefix.pch.h.h"]) := by
  have h := (generate_pch_spec (fun fs g => (g, 5) :: fs) (fun _ => "h") "/p"
    ["-x"] ["-I"] [("/p/a-Prefix.pch", 10)] "/p/a-Prefix.pch" [] (by decide)).2.2.1
    (by decide) (by decide)
  rw [h]
  decide

end DeopleteClang2
